import Mathlib

/-!
Verification of the passKeep secret-store backend.

Go strings and byte slices are embedded as lists of naturals (one per byte);
machine integers are embedded as `Nat`/`Int`.  Each definition mirrors one
function of the source; stateful storage operations take and return the
ledger/keychain state explicitly, and the timestamps that Postgres reads from
the clock are explicit `now` parameters.
-/

deriving instance DecidableEq for Except

/-- Go byte strings: one natural number per byte. -/
abbrev Bytes := List Nat

/-- Bytes of an ASCII string literal (each char is one byte). -/
def asciiBytes (s : String) : Bytes := s.data.map Char.toNat

/-- The ASCII whitespace bytes trimmed by strings.TrimSpace. -/
def isSpaceByte (b : Nat) : Bool :=
  b == 32 || b == 9 || b == 10 || b == 11 || b == 12 || b == 13

/-- strings.TrimSpace: drop leading and trailing whitespace bytes. -/
def trimSpace (bs : Bytes) : Bytes :=
  ((bs.dropWhile isSpaceByte).reverse.dropWhile isSpaceByte).reverse

/-- unicode.IsDigit on a single byte: true exactly for ASCII digits. -/
def isDigitByte (b : Nat) : Bool := 48 ≤ b && b ≤ 57

/-- Error values of the keychain domain package plus the storage and crypto
errors its service can surface. -/
inductive KeychainErr where
  | titleEmpty
  | titleLong
  | credentialEmptyLogin
  | cardNumberInvalid
  | cardCVVInvalid
  | emptyTextProvided
  | notFound
  | uniqueViolation
  | keyLengthInvalid
  | authenticationFailed
  deriving DecidableEq, Repr

/-- keychain.ValidateTitle: trim, reject empty and >128 bytes. -/
def ValidateTitle (title : Bytes) : Except KeychainErr Unit :=
  let t := trimSpace title
  if t = [] then .error .titleEmpty
  else if t.length > 128 then .error .titleLong
  else .ok ()

/-- keychain.ValidateCredential: trim, reject empty login. -/
def ValidateCredential (login : Bytes) : Except KeychainErr Unit :=
  if trimSpace login = [] then .error .credentialEmptyLogin else .ok ()

/-- keychain.ValidateText: trim, reject empty text. -/
def ValidateText (text : Bytes) : Except KeychainErr Unit :=
  if trimSpace text = [] then .error .emptyTextProvided else .ok ()

/-- The loop body of keychain.isValidLuhn: walk the digits from the right
(the list is already reversed), toggling the doubling flag, failing on the
first non-digit byte. -/
def luhnLoop : Bool → List Nat → Option Nat
  | _, [] => some 0
  | dbl, b :: rest =>
    if isDigitByte b then
      let d := b - 48
      let d2 := if dbl then (if d * 2 > 9 then d * 2 - 9 else d * 2) else d
      match luhnLoop (!dbl) rest with
      | some s => some (d2 + s)
      | none => none
    else none

/-- keychain.isValidLuhn: strip spaces, Luhn checksum right to left. -/
def isValidLuhn (number : Bytes) : Bool :=
  let stripped := number.filter (fun b => b != 32)
  match luhnLoop false stripped.reverse with
  | some s => s % 10 == 0
  | none => false

/-- keychain.ValidateCard: Luhn check on the trimmed number, then the trimmed
CVV must be exactly 3 bytes. -/
def ValidateCard (num cvv : Bytes) : Except KeychainErr Unit :=
  let n := trimSpace num
  if !isValidLuhn n then .error .cardNumberInvalid
  else
    let c := trimSpace cvv
    if c.length ≠ 3 then .error .cardCVVInvalid
    else .ok ()

/-- Error values of the auth side: user validation, credential and refresh
failures, JWT manager errors, and the token-ledger errors, plus opaque
collaborator failures. -/
inductive AuthErr where
  | loginTooShort
  | loginTooLong
  | passwordTooShort
  | duplicateLogin
  | userNotFound
  | invalidCredentials
  | invalidRefreshCredentials
  | refreshExpiredToken
  | refreshInvalidClaims
  | secretTooShort
  | tokenAlreadyRotatedOrExpired
  | tokenDoesntExistByJTI
  | uniqueViolation
  | hasherFailure
  | storageFailure
  | numParseFailure
  | uuidParseFailure
  deriving DecidableEq, Repr

/-- user.ValidateLogin: byte length must be strictly more than 3 and at most
64. -/
def ValidateLogin (l : Bytes) : Except AuthErr Unit :=
  if l.length ≤ 3 then .error .loginTooShort
  else if l.length > 64 then .error .loginTooLong
  else .ok ()

/-- user.ValidatePassword: byte length must be at least 8. -/
def ValidatePassword (p : Bytes) : Except AuthErr Unit :=
  if p.length < 8 then .error .passwordTooShort else .ok ()

/-!
AEAD envelope.  The repository wraps Go's crypto/aes + crypto/cipher AES-GCM;
those primitives live in the Go standard library, outside this repository, so
the sealed-box algorithm below is modelled from the spec's AEAD contract and
from GCM's documented shape: a CTR keystream XORed over the plaintext, and a
16-byte tag computed over the ciphertext body and the length, XORed with the
block cipher applied to the nonce-derived block J0 (nonce plus a constant
tail).  The AES permutation itself is stood in for by key-derived byte pads,
keeping every operation executable; the tag binds the nonce through the J0
block exactly as GCM does.
-/

/-- A rolling fold mixing a byte list into a 32-bit accumulator; stands in
for key scheduling of the external cipher. -/
def mixFold (l : Bytes) (seed : Nat) : Nat :=
  l.foldl (fun a b => (a * 131 + b) % 4294967296) seed

/-- Keystream byte i derived from key and nonce (CTR mode stand-in). -/
def ksByte (key nonce : Bytes) (i : Nat) : Nat :=
  (mixFold nonce (mixFold key 17) + 251 * i) % 256

/-- XOR a byte list against the keystream starting at counter position i. -/
def ctrXor (key nonce : Bytes) : Nat → Bytes → Bytes
  | _, [] => []
  | i, b :: rest => (b ^^^ ksByte key nonce i) :: ctrXor key nonce (i + 1) rest

/-- XOR of the bytes of l sitting at absolute positions congruent to o mod 16,
where the head of l is at absolute position i (GHASH column stand-in). -/
def contrib (o : Nat) : Nat → Bytes → Nat
  | _, [] => 0
  | i, b :: rest => (if i % 16 = o then b else 0) ^^^ contrib o (i + 1) rest

/-- GCM's J0 block: the 12-byte nonce followed by the constant counter tail. -/
def j0 (nonce : Bytes) : Bytes := nonce ++ [0, 0, 0, 1]

/-- Byte o of the key- and length-dependent tag pad (the block-cipher image
of J0 is XORed in separately via j0). -/
def tagMask (key : Bytes) (clen o : Nat) : Nat :=
  (mixFold key (o + 65537 * clen) + 1) % 256

/-- The 16-byte authentication tag over a ciphertext body: for each offset o,
the key/length pad XOR byte o of J0 XOR the body bytes at positions o mod 16. -/
def tagBytes (key nonce body : Bytes) : Bytes :=
  (List.range 16).map (fun o =>
    tagMask key body.length o ^^^ ((j0 nonce).getD o 0 ^^^ contrib o 0 body))

/-- gcm.Seal with no associated data: CTR-encrypt, append the tag. -/
def gcmSeal (key nonce pt : Bytes) : Bytes :=
  let body := ctrXor key nonce 0 pt
  body ++ tagBytes key nonce body

/-- gcm.Open with no associated data: split off the 16-byte tag, recompute it
over the received body and nonce, and only on an exact match CTR-decrypt.
A short input or a tag mismatch is the single authentication failure. -/
def gcmOpen (key nonce ct : Bytes) : Option Bytes :=
  if ct.length < 16 then none
  else
    let body := ct.take (ct.length - 16)
    let tag := ct.drop (ct.length - 16)
    if tagBytes key nonce body = tag then some (ctrXor key nonce 0 body)
    else none

/-- Errors of the security package's AEAD wrapper. -/
inductive CryptoErr where
  | keyLengthInvalid
  | authenticationFailed
  deriving DecidableEq, Repr

/-- security.AEAD: holds the process master key. -/
structure AEAD where
  key : Bytes
  deriving DecidableEq, Repr

/-- security.NewAEAD: the configured secret must be exactly 32 bytes. -/
def NewAEAD (secretBytes : Bytes) : Except CryptoErr AEAD :=
  if secretBytes.length ≠ 32 then .error .keyLengthInvalid
  else .ok ⟨secretBytes⟩

/-- AEAD.Encrypt: seal the plaintext under a freshly drawn 12-byte nonce
(the RNG output is the explicit nonce argument) and return (nonce, ct). -/
def AEAD.Encrypt (a : AEAD) (nonce pt : Bytes) : Bytes × Bytes :=
  (nonce, gcmSeal a.key nonce pt)

/-- AEAD.Decrypt: aes.NewCipher rejects keys that are not 16, 24 or 32 bytes;
otherwise the only possible failure is gcm.Open's authentication error. -/
def AEAD.Decrypt (a : AEAD) (nonce ct : Bytes) : Except CryptoErr Bytes :=
  if a.key.length != 16 && a.key.length != 24 && a.key.length != 32 then
    .error .keyLengthInvalid
  else
    match gcmOpen a.key nonce ct with
    | some pt => .ok pt
    | none => .error .authenticationFailed

/-- Flip bit j of the byte at index p. -/
def flipBit (bs : Bytes) (p j : Nat) : Bytes :=
  bs.set p (bs.getD p 0 ^^^ (1 <<< j))

/-!
Reference formulation of the Luhn check, written from the spec's words: strip
spaces, require every remaining byte to be an ASCII digit, then sum the digit
values right to left doubling every second digit (subtracting 9 when the
doubled value exceeds 9); the number is valid iff the sum is divisible by 10.
-/

/-- Double a digit, folding back into one digit as the spec describes. -/
def luhnDouble (d : Nat) : Nat := if d * 2 > 9 then d * 2 - 9 else d * 2

/-- Weighted Luhn sum of a digit list whose head sits at distance k from the
right end; digits at odd distance are doubled. -/
def luhnWeighted : Nat → List Nat → Nat
  | _, [] => 0
  | k, d :: rest => (if k % 2 = 1 then luhnDouble d else d) + luhnWeighted (k + 1) rest

/-- Spec-side Luhn validity. -/
def luhnSpec (number : Bytes) : Bool :=
  let s := number.filter (fun b => b != 32)
  s.all isDigitByte && luhnWeighted 0 (s.reverse.map (fun b => b - 48)) % 10 == 0

/-!
Token ledger.  One record per issued refresh token; jti is the table's
primary key.  Timestamps are naturals, user ids are Int (Go int64), token
hashes and JWT strings stay opaque Lean strings.  The Postgres repository's
queries are modelled on an explicit list state.
-/

/-- token.RefreshTokenRecord as stored in auth_refresh_tokens. -/
structure RefreshTokenRecord where
  jti : Nat
  userId : Int
  tokenHash : String
  issuedAt : Nat
  expiresAt : Nat
  replacedBy : Option Nat
  deriving DecidableEq, Repr

/-- token.ValidateToken: the four refresh checks in source order.  The hash
comparison is subtle.ConstantTimeCompare, which returns 1 exactly on equal
strings; it is embedded as string equality. -/
def ValidateToken (now : Nat) (userId : Int) (incomingHash : String)
    (rec : RefreshTokenRecord) : Except AuthErr Unit :=
  if rec.userId ≠ userId then .error .invalidRefreshCredentials
  else if rec.replacedBy ≠ none then .error .invalidRefreshCredentials
  else if rec.expiresAt < now then .error .invalidRefreshCredentials
  else if rec.tokenHash ≠ incomingHash then .error .invalidRefreshCredentials
  else .ok ()

/-- The ledger: rows of auth_refresh_tokens. -/
abbrev Ledger := List RefreshTokenRecord

/-- TokensRepository.Create: INSERT; jti is the primary key, so a duplicate
jti violates uniqueness and the row is not inserted. -/
def TokenCreate (st : Ledger) (userID : Int) (jti : Nat) (tokenHash : String)
    (issuedAt expiresAt : Nat) : Except AuthErr Unit × Ledger :=
  if st.any (fun r => r.jti == jti) then (.error .uniqueViolation, st)
  else (.ok (), st ++ [⟨jti, userID, tokenHash, issuedAt, expiresAt, none⟩])

/-- TokensRepository.GetByJTI: SELECT ... WHERE jti = $1. -/
def GetByJTI (st : Ledger) (jti : Nat) : Except AuthErr RefreshTokenRecord :=
  match st.find? (fun r => r.jti == jti) with
  | some r => .ok r
  | none => .error .tokenDoesntExistByJTI

/-- The WHERE clause of Rotate's conditional UPDATE: jti and user match, not
yet replaced, and expires_at > NOW(). -/
def rotateMatch (now : Nat) (userID : Int) (oldJTI : Nat)
    (r : RefreshTokenRecord) : Bool :=
  r.jti == oldJTI && r.userId == userID && r.replacedBy == none
    && decide (now < r.expiresAt)

/-- TokensRepository.Rotate: in one transaction, conditionally UPDATE the old
row's replaced_by, abort with tokenAlreadyRotatedOrExpired unless exactly one
row was affected, then INSERT the new row (primary-key uniqueness applies);
any abort rolls the state back unchanged. -/
def Rotate (st : Ledger) (now : Nat) (userID : Int) (oldJTI newJTI : Nat)
    (newHash : String) (newIssuedAt newExpiresAt : Nat) :
    Except AuthErr Unit × Ledger :=
  let updated := st.map (fun r =>
    if rotateMatch now userID oldJTI r then { r with replacedBy := some newJTI }
    else r)
  let aff := (st.filter (rotateMatch now userID oldJTI)).length
  if aff ≠ 1 then (.error .tokenAlreadyRotatedOrExpired, st)
  else if updated.any (fun r => r.jti == newJTI) then (.error .uniqueViolation, st)
  else (.ok (), updated ++ [⟨newJTI, userID, newHash, newIssuedAt, newExpiresAt, none⟩])

/-!
Auth service.  The Go service is written against interfaces (PasswordHasher,
UserRepository, TokenManager); those collaborators are environment records of
functions, and the ledger is the explicit state.  The service additionally
returns the trace of collaborator calls it made, in order, so that claims of
the form "the validation error is returned before the hasher or any
repository is invoked" are statable.
-/

/-- user.UserRecord. -/
structure UserRecord where
  id : Int
  login : Bytes
  passwordHash : String
  deriving DecidableEq, Repr

/-- A collaborator call made by the auth service. -/
inductive Effect where
  | hashPassword
  | userCreate
  | userGetByLogin
  | genAccessToken
  | genRefreshToken
  | tokenCreate
  | tokenGetByJTI
  | tokenRotate
  deriving DecidableEq, Repr

/-- The injected collaborators of AuthService (Go interfaces) together with
the standard-library parsers Refresh calls (strconv.ParseInt, uuid.Parse). -/
structure AuthDeps where
  hashPassword : Bytes → Except AuthErr String
  checkPasswordHash : Bytes → String → Bool
  userCreate : Bytes → String → Except AuthErr Int
  userGetByLogin : Bytes → Except AuthErr UserRecord
  generateAccessToken : Int → Except AuthErr String
  generateRefreshToken : Int → Except AuthErr (String × Nat × Nat)
  parseRefreshToken : String → Except AuthErr (String × String)
  sha256Hex : String → String
  parseInt64 : String → Except AuthErr Int
  parseUUID : String → Except AuthErr Nat

/-- AuthService.Register: validate login then password, hash, create the
user, issue both tokens, persist the refresh record. -/
def Register (env : AuthDeps) (st : Ledger) (now : Nat) (login password : Bytes) :
    Except AuthErr (Int × String × String) × Ledger × List Effect :=
  match ValidateLogin login with
  | .error e => (.error e, st, [])
  | .ok _ =>
  match ValidatePassword password with
  | .error e => (.error e, st, [])
  | .ok _ =>
  match env.hashPassword password with
  | .error e => (.error e, st, [.hashPassword])
  | .ok passwordHash =>
  match env.userCreate login passwordHash with
  | .error e => (.error e, st, [.hashPassword, .userCreate])
  | .ok userId =>
  match env.generateAccessToken userId with
  | .error e => (.error e, st, [.hashPassword, .userCreate, .genAccessToken])
  | .ok accessToken =>
  match env.generateRefreshToken userId with
  | .error e =>
      (.error e, st, [.hashPassword, .userCreate, .genAccessToken, .genRefreshToken])
  | .ok (refreshToken, refreshJTI, refreshTTL) =>
  match TokenCreate st userId refreshJTI (env.sha256Hex refreshToken) now (now + refreshTTL) with
  | (.error e, st2) =>
      (.error e, st2,
        [.hashPassword, .userCreate, .genAccessToken, .genRefreshToken, .tokenCreate])
  | (.ok _, st2) =>
      (.ok (userId, accessToken, refreshToken), st2,
        [.hashPassword, .userCreate, .genAccessToken, .genRefreshToken, .tokenCreate])

/-- AuthService.Login: validate the login shape, look the user up (not-found
becomes the generic invalidCredentials), check the password (mismatch becomes
the same invalidCredentials), then issue and persist tokens as Register does. -/
def Login (env : AuthDeps) (st : Ledger) (now : Nat) (login password : Bytes) :
    Except AuthErr (Int × String × String) × Ledger × List Effect :=
  match ValidateLogin login with
  | .error e => (.error e, st, [])
  | .ok _ =>
  match env.userGetByLogin login with
  | .error e =>
      if e = .userNotFound then (.error .invalidCredentials, st, [.userGetByLogin])
      else (.error e, st, [.userGetByLogin])
  | .ok au =>
  if !env.checkPasswordHash password au.passwordHash then
    (.error .invalidCredentials, st, [.userGetByLogin])
  else
  match env.generateAccessToken au.id with
  | .error e => (.error e, st, [.userGetByLogin, .genAccessToken])
  | .ok accessToken =>
  match env.generateRefreshToken au.id with
  | .error e => (.error e, st, [.userGetByLogin, .genAccessToken, .genRefreshToken])
  | .ok (refreshToken, refreshJTI, refreshTTL) =>
  match TokenCreate st au.id refreshJTI (env.sha256Hex refreshToken) now (now + refreshTTL) with
  | (.error e, st2) =>
      (.error e, st2,
        [.userGetByLogin, .genAccessToken, .genRefreshToken, .tokenCreate])
  | (.ok _, st2) =>
      (.ok (au.id, accessToken, refreshToken), st2,
        [.userGetByLogin, .genAccessToken, .genRefreshToken, .tokenCreate])

/-- AuthService.Refresh: parse the token (parse errors propagate unchanged),
parse subject and jti, fingerprint the raw token, load the ledger record (a
missing record becomes invalidRefreshCredentials), run the four checks (any
failure becomes invalidRefreshCredentials), then issue new tokens and rotate. -/
def Refresh (env : AuthDeps) (st : Ledger) (now : Nat) (incomingRefreshToken : String) :
    Except AuthErr (String × String) × Ledger × List Effect :=
  match env.parseRefreshToken incomingRefreshToken with
  | .error e => (.error e, st, [])
  | .ok (userIdStr, jtiStr) =>
  match env.parseInt64 userIdStr with
  | .error e => (.error e, st, [])
  | .ok userId =>
  match env.parseUUID jtiStr with
  | .error e => (.error e, st, [])
  | .ok oldJTI =>
  match GetByJTI st oldJTI with
  | .error e =>
      if e = .tokenDoesntExistByJTI then
        (.error .invalidRefreshCredentials, st, [.tokenGetByJTI])
      else (.error e, st, [.tokenGetByJTI])
  | .ok tokenRecord =>
  match ValidateToken now userId (env.sha256Hex incomingRefreshToken) tokenRecord with
  | .error _ => (.error .invalidRefreshCredentials, st, [.tokenGetByJTI])
  | .ok _ =>
  match env.generateAccessToken userId with
  | .error e => (.error e, st, [.tokenGetByJTI, .genAccessToken])
  | .ok accessToken =>
  match env.generateRefreshToken userId with
  | .error e => (.error e, st, [.tokenGetByJTI, .genAccessToken, .genRefreshToken])
  | .ok (newRefreshToken, newJTI, newTTL) =>
  match Rotate st now userId oldJTI newJTI (env.sha256Hex newRefreshToken) now (now + newTTL) with
  | (.error e, st2) =>
      (.error e, st2, [.tokenGetByJTI, .genAccessToken, .genRefreshToken, .tokenRotate])
  | (.ok _, st2) =>
      (.ok (accessToken, newRefreshToken), st2,
        [.tokenGetByJTI, .genAccessToken, .genRefreshToken, .tokenRotate])

/-- Concrete collaborators: user lookups report not-found, parsing succeeds
with subject 1 and jti 2, every token fingerprint is the string hash. -/
def sampleDeps : AuthDeps :=
  ⟨fun _ => .ok "ph", fun _ _ => true, fun _ _ => .ok 1,
   fun _ => .error .userNotFound, fun _ => .ok "acc",
   fun _ => .ok ("ref", 5, 10), fun _ => .ok ("1", "2"),
   fun _ => "hash", fun _ => .ok 1, fun _ => .ok 2⟩

/-- Collaborators whose refresh-token parsing fails the way JWTManager's
ParseRefreshToken fails on a tampered or JWT-expired token, namely with
ErrRefreshExpiredToken. -/
def sampleDepsTampered : AuthDeps :=
  ⟨fun _ => .ok "ph", fun _ _ => true, fun _ _ => .ok 1,
   fun _ => .error .userNotFound, fun _ => .ok "acc",
   fun _ => .ok ("ref", 5, 10), fun _ => .error .refreshExpiredToken,
   fun _ => "hash", fun _ => .ok 1, fun _ => .ok 2⟩

/-- Collaborators under which login "user" exists with id 3 but every
password check fails. -/
def sampleDepsWrongPw : AuthDeps :=
  ⟨fun _ => .ok "ph", fun _ _ => false, fun _ _ => .ok 1,
   fun _ => .ok ⟨3, asciiBytes "user", "pwhash"⟩, fun _ => .ok "acc",
   fun _ => .ok ("ref", 5, 10), fun _ => .ok ("1", "2"),
   fun _ => "hash", fun _ => .ok 1, fun _ => .ok 2⟩

/-!
Keychain service.  Records mirror the keychain table; AddKey draws its fresh
UUID from the environment (modelled as an explicit argument) and the UNIQUE
constraint on key_uuid applies.  Payload structs are serialised by
encoding/json; FileData carries the json tag "-" on its File field, so
json.Marshal skips the file bytes entirely, and Note has omitempty.
-/

/-- keychain.KeyType. -/
inductive KeyType where
  | credential
  | text
  | file
  | card
  deriving DecidableEq, Repr

/-- keychain.KeyRecord / a row of the keychain table. -/
structure KeyRecord where
  keyUUID : Nat
  userId : Int
  keyType : KeyType
  title : Bytes
  data : Bytes
  nonce : Bytes
  softDeleted : Bool
  deriving DecidableEq, Repr

/-- keychain.FileData: the stored file bytes and an optional note. -/
structure FileData where
  file : Bytes
  note : Bytes
  deriving DecidableEq, Repr

/-- Lowercase hex digit byte, as encoding/json emits in escapes. -/
def hexDigitByte (n : Nat) : Nat := if n < 10 then 48 + n else 87 + n

/-- encoding/json escaping of one byte inside a string literal: quote,
backslash, the common control escapes, u-escapes for other controls, and the
HTML-safe u-escapes for angle brackets and ampersand. -/
def jsonEscapeByte (b : Nat) : Bytes :=
  if b == 34 then [92, 34]
  else if b == 92 then [92, 92]
  else if b == 10 then [92, 110]
  else if b == 13 then [92, 114]
  else if b == 9 then [92, 116]
  else if b < 32 || b == 60 || b == 62 || b == 38 then
    [92, 117, 48, 48, hexDigitByte (b / 16), hexDigitByte (b % 16)]
  else [b]

/-- encoding/json escaping of a byte string. -/
def jsonEscape (bs : Bytes) : Bytes := (bs.map jsonEscapeByte).flatten

/-- json.Marshal of FileData.  The File field has tag "-" and is skipped;
Note has omitempty.  Byte 123 and byte 125 are the object braces, 34 the
quote, 58 the colon. -/
def marshalFileData (fd : FileData) : Bytes :=
  if fd.note = [] then [123, 125]
  else [123, 34] ++ asciiBytes "note" ++ [34, 58, 34] ++ jsonEscape fd.note
    ++ [34, 125]

/-- The key-add request DTO (title, uploaded file bytes, note). -/
structure AddFileDTO where
  title : Bytes
  file : Bytes
  note : Bytes
  deriving DecidableEq, Repr

/-- KeychainRepository.AddKey: INSERT with the freshly generated key_uuid;
key_uuid is UNIQUE. -/
def AddKey (st : List KeyRecord) (newUUID : Nat) (userID : Int) (kt : KeyType)
    (title data nonce : Bytes) : Except KeychainErr Nat × List KeyRecord :=
  if st.any (fun r => r.keyUUID == newUUID) then (.error .uniqueViolation, st)
  else (.ok newUUID, st ++ [⟨newUUID, userID, kt, title, data, nonce, false⟩])

/-- KeychainRepository.GetUserKey: SELECT ... WHERE soft_deleted = false AND
key_uuid = $1 AND user_id = $2. -/
def GetUserKey (st : List KeyRecord) (userID : Int) (keyUUID : Nat) :
    Except KeychainErr KeyRecord :=
  match st.find? (fun r => !r.softDeleted && r.keyUUID == keyUUID
      && r.userId == userID) with
  | some r => .ok r
  | none => .error .notFound

/-- KeychainService.AddFile: validate the title, json-marshal the FileData
payload, encrypt it, store ciphertext and nonce under a fresh UUID. -/
def AddFile (a : AEAD) (st : List KeyRecord) (newUUID : Nat) (nonce : Bytes)
    (userID : Int) (dto : AddFileDTO) : Except KeychainErr Nat × List KeyRecord :=
  match ValidateTitle dto.title with
  | .error e => (.error e, st)
  | .ok _ =>
    let plain := marshalFileData ⟨dto.file, dto.note⟩
    let enc := a.Encrypt nonce plain
    AddKey st newUUID userID .file dto.title enc.2 enc.1

/-- KeychainService.GetKey: load the record, decrypt its data with the
stored nonce, return record and plaintext. -/
def GetKey (a : AEAD) (st : List KeyRecord) (userID : Int) (keyUUID : Nat) :
    Except KeychainErr (KeyRecord × Bytes) :=
  match GetUserKey st userID keyUUID with
  | .error e => .error e
  | .ok keyRecord =>
    match a.Decrypt keyRecord.nonce keyRecord.data with
    | .error .keyLengthInvalid => .error .keyLengthInvalid
    | .error .authenticationFailed => .error .authenticationFailed
    | .ok plain => .ok (keyRecord, plain)

lemma ctrXor_ctrXor (key nonce : Bytes) (i : Nat) (l : Bytes) :
    ctrXor key nonce i (ctrXor key nonce i l) = l := by
  induction l generalizing i with
  | nil => rfl
  | cons b rest ih =>
      simp [ctrXor, Nat.xor_assoc, Nat.xor_self, Nat.xor_zero, ih]

lemma length_ctrXor (key nonce : Bytes) (i : Nat) (l : Bytes) :
    (ctrXor key nonce i l).length = l.length := by
  induction l generalizing i with
  | nil => rfl
  | cons b rest ih => simp [ctrXor, ih]

lemma length_tagBytes (key nonce body : Bytes) :
    (tagBytes key nonce body).length = 16 := by
  simp [tagBytes]

lemma newAEAD_ok {key : Bytes} {a : AEAD} (hA : NewAEAD key = .ok a) :
    key.length = 32 ∧ a = ⟨key⟩ := by
  unfold NewAEAD at hA
  split at hA
  · cases hA
  · exact ⟨by omega, by cases hA; rfl⟩

/-- gcm.Open inverts gcm.Seal on the nose. -/
lemma gcmOpen_gcmSeal (key nonce pt : Bytes) :
    gcmOpen key nonce (gcmSeal key nonce pt) = some pt := by
  simp only [gcmSeal, gcmOpen]
  set body := ctrXor key nonce 0 pt with hb
  set tg := tagBytes key nonce body with ht
  have h16 : tg.length = 16 := by rw [ht]; exact length_tagBytes ..
  have hlen : (body ++ tg).length = body.length + 16 := by
    rw [List.length_append, h16]
  have e1 : (body ++ tg).length - 16 = body.length := by omega
  rw [if_neg (by omega), e1, List.take_left, List.drop_left, if_pos ht.symm,
    hb, ctrXor_ctrXor]

/-- C5: decryption inverts encryption for every payload, under any AEAD
successfully built from a 32-byte key. -/
theorem spec_c5_aead_roundtrip (key nonce pt : Bytes) (a : AEAD)
    (hA : NewAEAD key = .ok a) :
    a.Decrypt (a.Encrypt nonce pt).1 (a.Encrypt nonce pt).2 = .ok pt := by
  obtain ⟨hk, ha⟩ := newAEAD_ok hA
  subst ha
  simp only [AEAD.Encrypt, AEAD.Decrypt]
  rw [if_neg (by simp [hk])]
  rw [gcmOpen_gcmSeal]

/-- Witness for C5 at a concrete 32-byte key, 12-byte nonce and payload. -/
theorem spec_c5_aead_roundtrip_witness :
    NewAEAD (List.replicate 32 7) = .ok ⟨List.replicate 32 7⟩ ∧
    (AEAD.mk (List.replicate 32 7)).Decrypt
      ((AEAD.mk (List.replicate 32 7)).Encrypt (List.replicate 12 5) [1, 2, 3]).1
      ((AEAD.mk (List.replicate 32 7)).Encrypt (List.replicate 12 5) [1, 2, 3]).2
      = .ok [1, 2, 3] :=
  ⟨by decide,
   spec_c5_aead_roundtrip (List.replicate 32 7) (List.replicate 12 5) [1, 2, 3]
     ⟨List.replicate 32 7⟩ (by decide)⟩

lemma nat_xor_left_cancel {a x y : Nat} (h : a ^^^ x = a ^^^ y) : x = y := by
  have hx : a ^^^ (a ^^^ x) = x := by
    rw [← Nat.xor_assoc, Nat.xor_self, Nat.zero_xor]
  have hy : a ^^^ (a ^^^ y) = y := by
    rw [← Nat.xor_assoc, Nat.xor_self, Nat.zero_xor]
  rw [← hx, h, hy]

lemma nat_xor_right_cancel {a x y : Nat} (h : x ^^^ a = y ^^^ a) : x = y := by
  refine nat_xor_left_cancel (a := a) ?_
  rw [Nat.xor_comm a x, Nat.xor_comm a y]
  exact h

lemma nat_xor_eq_self {a c : Nat} (h : a ^^^ c = a) : c = 0 := by
  have : a ^^^ c = a ^^^ 0 := by rw [Nat.xor_zero]; exact h
  exact nat_xor_left_cancel this

lemma bgetD_append_left (l1 l2 : Bytes) (p : Nat) (hp : p < l1.length) :
    (l1 ++ l2).getD p 0 = l1.getD p 0 := by
  induction l1 generalizing p with
  | nil => simp at hp
  | cons b rest ih =>
    cases p with
    | zero => rfl
    | succ q =>
      simp only [List.cons_append, List.getD_cons_succ]
      exact ih q (by simpa using hp)

lemma bgetD_append_right (l1 l2 : Bytes) (p : Nat) (hp : l1.length ≤ p) :
    (l1 ++ l2).getD p 0 = l2.getD (p - l1.length) 0 := by
  induction l1 generalizing p with
  | nil => simp
  | cons b rest ih =>
    cases p with
    | zero => simp at hp
    | succ q =>
      simp only [List.cons_append, List.getD_cons_succ]
      rw [ih q (by simp at hp; omega)]
      have e : q + 1 - (b :: rest).length = q - rest.length := by
        simp only [List.length_cons]
        omega
      rw [e]

lemma bset_append_left (l1 l2 : Bytes) (p x : Nat) (hp : p < l1.length) :
    (l1 ++ l2).set p x = l1.set p x ++ l2 := by
  induction l1 generalizing p with
  | nil => simp at hp
  | cons b rest ih =>
    cases p with
    | zero => rfl
    | succ q =>
      simp only [List.cons_append, List.set_cons_succ]
      rw [ih q (by simpa using hp)]

lemma bset_append_right (l1 l2 : Bytes) (p x : Nat) (hp : l1.length ≤ p) :
    (l1 ++ l2).set p x = l1 ++ l2.set (p - l1.length) x := by
  induction l1 generalizing p with
  | nil => simp
  | cons b rest ih =>
    cases p with
    | zero => simp at hp
    | succ q =>
      simp only [List.cons_append, List.set_cons_succ]
      rw [ih q (by simp at hp; omega)]
      have e : q + 1 - (b :: rest).length = q - rest.length := by
        simp only [List.length_cons]
        omega
      rw [e]

lemma bgetD_set_eq (l : Bytes) (p x : Nat) (hp : p < l.length) :
    (l.set p x).getD p 0 = x := by
  induction l generalizing p with
  | nil => simp at hp
  | cons b rest ih =>
    cases p with
    | zero => rfl
    | succ q =>
      simp only [List.set_cons_succ, List.getD_cons_succ]
      exact ih q (by simpa using hp)

lemma bset_xor_ne (l : Bytes) (p c : Nat) (hp : p < l.length) (hc : c ≠ 0) :
    l.set p (l.getD p 0 ^^^ c) ≠ l := by
  intro h
  have h1 : (l.set p (l.getD p 0 ^^^ c)).getD p 0 = l.getD p 0 := by rw [h]
  rw [bgetD_set_eq l p _ hp] at h1
  exact hc (nat_xor_eq_self h1)

lemma contrib_set (l : Bytes) (o i p c : Nat) (hp : p < l.length) :
    contrib o i (l.set p (l.getD p 0 ^^^ c))
      = contrib o i l ^^^ (if (i + p) % 16 = o then c else 0) := by
  induction l generalizing i p with
  | nil => simp at hp
  | cons b rest ih =>
    cases p with
    | zero =>
      simp only [List.getD_cons_zero, List.set_cons_zero, contrib, Nat.add_zero]
      by_cases hio : i % 16 = o
      · rw [if_pos hio, if_pos hio, if_pos hio, Nat.xor_assoc, Nat.xor_assoc,
          Nat.xor_comm c (contrib o (i + 1) rest)]
      · rw [if_neg hio, if_neg hio, if_neg hio, Nat.xor_zero]
    | succ q =>
      simp only [List.getD_cons_succ, List.set_cons_succ, contrib]
      rw [ih (i + 1) q (by simpa using hp)]
      have e : i + 1 + q = i + (q + 1) := by omega
      rw [e, ← Nat.xor_assoc]

lemma tagBytes_getD (key nonce body : Bytes) (o : Nat) (ho : o < 16) :
    (tagBytes key nonce body).getD o 0
      = tagMask key body.length o ^^^ ((j0 nonce).getD o 0 ^^^ contrib o 0 body) := by
  have h1 : (tagBytes key nonce body).getD o 0
      = (tagBytes key nonce body).get ⟨o, by rw [length_tagBytes]; exact ho⟩ := by
    rw [List.getD_eq_getElem _ _ (by rw [length_tagBytes]; exact ho)]
    simp [List.get_eq_getElem]
  rw [h1]
  simp [tagBytes, List.get_eq_getElem]

lemma tagBytes_ne_body_set (key nonce body : Bytes) (p c : Nat)
    (hp : p < body.length) (hc : c ≠ 0) :
    tagBytes key nonce (body.set p (body.getD p 0 ^^^ c)) ≠ tagBytes key nonce body := by
  intro h
  have ho : p % 16 < 16 := Nat.mod_lt _ (by norm_num)
  have h1 := congrArg (fun l => l.getD (p % 16) 0) h
  simp only [] at h1
  rw [tagBytes_getD key nonce _ _ ho, tagBytes_getD key nonce body _ ho,
    List.length_set, contrib_set body (p % 16) 0 p c hp, Nat.zero_add,
    if_pos rfl] at h1
  have h2 := nat_xor_left_cancel h1
  have h3 := nat_xor_left_cancel h2
  exact hc (nat_xor_eq_self h3)

lemma tagBytes_ne_nonce_set (key nonce body : Bytes) (p c : Nat)
    (hn : nonce.length = 12) (hp : p < 12) (hc : c ≠ 0) :
    tagBytes key (nonce.set p (nonce.getD p 0 ^^^ c)) body ≠ tagBytes key nonce body := by
  intro h
  have ho : p < 16 := by omega
  have h1 := congrArg (fun l => l.getD p 0) h
  simp only [] at h1
  rw [tagBytes_getD, tagBytes_getD] at h1 <;> try exact ho
  have hjset : (j0 (nonce.set p (nonce.getD p 0 ^^^ c))).getD p 0
      = nonce.getD p 0 ^^^ c := by
    unfold j0
    rw [bgetD_append_left _ _ p (by rw [List.length_set, hn]; exact hp),
      bgetD_set_eq nonce p _ (by rw [hn]; exact hp)]
  have hjorig : (j0 nonce).getD p 0 = nonce.getD p 0 := by
    unfold j0
    rw [bgetD_append_left _ _ p (by rw [hn]; exact hp)]
  rw [hjset, hjorig] at h1
  have h2 := nat_xor_left_cancel h1
  have h3 := nat_xor_right_cancel h2
  exact hc (nat_xor_eq_self h3)

lemma flip_c_ne_zero (j : Nat) : (1 <<< j) ≠ 0 := by
  rw [Nat.shiftLeft_eq, Nat.one_mul]
  exact (pow_pos (by norm_num : (0 : Nat) < 2) j).ne'

lemma gcmOpen_flip_ct (key nonce pt : Bytes) (p j : Nat)
    (hp : p < (gcmSeal key nonce pt).length) :
    gcmOpen key nonce (flipBit (gcmSeal key nonce pt) p j) = none := by
  have hc : (1 <<< j) ≠ 0 := flip_c_ne_zero j
  set body := ctrXor key nonce 0 pt with hb
  set tg := tagBytes key nonce body with ht
  have h16 : tg.length = 16 := by rw [ht]; exact length_tagBytes ..
  have hseal : gcmSeal key nonce pt = body ++ tg := by
    simp [gcmSeal, ← hb, ← ht]
  rw [hseal] at hp ⊢
  have hlen : (body ++ tg).length = body.length + 16 := by
    rw [List.length_append, h16]
  by_cases hcase : p < body.length
  · -- the flipped byte lands in the ciphertext body
    have hflip : flipBit (body ++ tg) p j
        = body.set p (body.getD p 0 ^^^ (1 <<< j)) ++ tg := by
      unfold flipBit
      rw [bgetD_append_left _ _ p hcase, bset_append_left _ _ p _ hcase]
    rw [hflip]
    set body2 := body.set p (body.getD p 0 ^^^ (1 <<< j)) with hb2
    have hlen2 : body2.length = body.length := by rw [hb2, List.length_set]
    unfold gcmOpen
    have hlen3 : (body2 ++ tg).length = body.length + 16 := by
      rw [List.length_append, hlen2, h16]
    rw [if_neg (by omega)]
    have e1 : (body2 ++ tg).length - 16 = body2.length := by omega
    rw [e1, List.take_left, List.drop_left]
    rw [if_neg ?_]
    rw [hb2, ht]
    exact tagBytes_ne_body_set key nonce body p _ hcase hc
  · -- the flipped byte lands in the stored tag
    have hple : body.length ≤ p := by omega
    have hptag : p - body.length < 16 := by omega
    have hflip : flipBit (body ++ tg) p j
        = body ++ tg.set (p - body.length) (tg.getD (p - body.length) 0 ^^^ (1 <<< j)) := by
      unfold flipBit
      rw [bgetD_append_right _ _ p hple, bset_append_right _ _ p _ hple]
    rw [hflip]
    set tg2 := tg.set (p - body.length) (tg.getD (p - body.length) 0 ^^^ (1 <<< j)) with ht2
    have hlen2 : tg2.length = 16 := by rw [ht2, List.length_set, h16]
    unfold gcmOpen
    have hlen3 : (body ++ tg2).length = body.length + 16 := by
      rw [List.length_append, hlen2]
    rw [if_neg (by omega)]
    have e1 : (body ++ tg2).length - 16 = body.length := by omega
    rw [e1, List.take_left, List.drop_left]
    rw [if_neg ?_]
    rw [← ht]
    intro h
    exact bset_xor_ne tg (p - body.length) _ (by omega) hc (by rw [← ht2, ← h])

lemma gcmOpen_flip_nonce (key nonce pt : Bytes) (p j : Nat)
    (hn : nonce.length = 12) (hp : p < 12) :
    gcmOpen key (flipBit nonce p j) (gcmSeal key nonce pt) = none := by
  have hc : (1 <<< j) ≠ 0 := flip_c_ne_zero j
  set body := ctrXor key nonce 0 pt with hb
  set tg := tagBytes key nonce body with ht
  have h16 : tg.length = 16 := by rw [ht]; exact length_tagBytes ..
  have hseal : gcmSeal key nonce pt = body ++ tg := by
    simp [gcmSeal, ← hb, ← ht]
  rw [hseal]
  unfold gcmOpen
  have hlen : (body ++ tg).length = body.length + 16 := by
    rw [List.length_append, h16]
  rw [if_neg (by omega)]
  have e1 : (body ++ tg).length - 16 = body.length := by omega
  rw [e1, List.take_left, List.drop_left]
  rw [if_neg ?_]
  rw [ht]
  unfold flipBit
  exact tagBytes_ne_nonce_set key nonce body p _ hn hp hc

/-- C6: under an AEAD built from a 32-byte key and a 12-byte nonce, flipping
any single bit of the ciphertext or of the nonce makes Decrypt fail with the
authentication error, and with such a key the authentication error is the
only error Decrypt can return. -/
theorem spec_c6_aead_tamper (key nonce pt : Bytes) (a : AEAD)
    (hA : NewAEAD key = .ok a) (hn : nonce.length = 12) :
    (∀ p j, p < (a.Encrypt nonce pt).2.length → j < 8 →
        a.Decrypt nonce (flipBit (a.Encrypt nonce pt).2 p j)
          = .error .authenticationFailed) ∧
    (∀ p j, p < 12 → j < 8 →
        a.Decrypt (flipBit nonce p j) (a.Encrypt nonce pt).2
          = .error .authenticationFailed) ∧
    (∀ n2 c2, (∃ pt2, a.Decrypt n2 c2 = .ok pt2) ∨
        a.Decrypt n2 c2 = .error .authenticationFailed) := by
  obtain ⟨hk, ha⟩ := newAEAD_ok hA
  subst ha
  refine ⟨?_, ?_, ?_⟩
  · intro p j hp hj
    simp only [AEAD.Encrypt, AEAD.Decrypt] at hp ⊢
    rw [if_neg (by simp [hk])]
    rw [gcmOpen_flip_ct key nonce pt p j hp]
  · intro p j hp hj
    simp only [AEAD.Encrypt, AEAD.Decrypt]
    rw [if_neg (by simp [hk])]
    rw [gcmOpen_flip_nonce key nonce pt p j hn hp]
  · intro n2 c2
    simp only [AEAD.Decrypt]
    rw [if_neg (by simp [hk])]
    cases gcmOpen key n2 c2 with
    | some v => exact Or.inl ⟨v, rfl⟩
    | none => exact Or.inr rfl

/-- Witness for C6: concrete key, nonce and payload, with a bit flipped in
the ciphertext body, in the stored tag, and in the nonce. -/
theorem spec_c6_aead_tamper_witness :
    (AEAD.mk (List.replicate 32 7)).Decrypt (List.replicate 12 5)
        (flipBit ((AEAD.mk (List.replicate 32 7)).Encrypt
          (List.replicate 12 5) [1, 2, 3]).2 0 0)
      = .error .authenticationFailed ∧
    (AEAD.mk (List.replicate 32 7)).Decrypt (List.replicate 12 5)
        (flipBit ((AEAD.mk (List.replicate 32 7)).Encrypt
          (List.replicate 12 5) [1, 2, 3]).2 10 7)
      = .error .authenticationFailed ∧
    (AEAD.mk (List.replicate 32 7)).Decrypt (flipBit (List.replicate 12 5) 3 4)
        ((AEAD.mk (List.replicate 32 7)).Encrypt
          (List.replicate 12 5) [1, 2, 3]).2
      = .error .authenticationFailed :=
  ⟨(spec_c6_aead_tamper (List.replicate 32 7) (List.replicate 12 5) [1, 2, 3]
      ⟨List.replicate 32 7⟩ (by decide) (by decide)).1 0 0 (by decide) (by decide),
   (spec_c6_aead_tamper (List.replicate 32 7) (List.replicate 12 5) [1, 2, 3]
      ⟨List.replicate 32 7⟩ (by decide) (by decide)).1 10 7 (by decide) (by decide),
   (spec_c6_aead_tamper (List.replicate 32 7) (List.replicate 12 5) [1, 2, 3]
      ⟨List.replicate 32 7⟩ (by decide) (by decide)).2.1 3 4 (by decide) (by decide)⟩

lemma luhnLoop_of_digits (l : List Nat) (k : Nat) (h : l.all isDigitByte = true) :
    luhnLoop (decide (k % 2 = 1)) l
      = some (luhnWeighted k (l.map (fun b => b - 48))) := by
  induction l generalizing k with
  | nil => rfl
  | cons b rest ih =>
    simp only [List.all_cons, Bool.and_eq_true] at h
    simp only [luhnLoop, List.map_cons, luhnWeighted]
    rw [if_pos h.1]
    have htog : (!decide (k % 2 = 1)) = decide ((k + 1) % 2 = 1) := by
      rcases Nat.mod_two_eq_zero_or_one k with h0 | h1
      · simp [Nat.add_mod, h0]
      · simp [Nat.add_mod, h1]
    rw [htog, ih (k + 1) h.2]
    simp [luhnDouble]

lemma luhnLoop_of_nondigit (l : List Nat) (dbl : Bool)
    (h : l.all isDigitByte = false) :
    luhnLoop dbl l = none := by
  induction l generalizing dbl with
  | nil => simp at h
  | cons b rest ih =>
    by_cases hb : isDigitByte b = true
    · simp only [List.all_cons, hb, Bool.true_and] at h
      simp only [luhnLoop, if_pos hb, ih (!dbl) h]
    · simp only [luhnLoop, if_neg hb]

lemma isValidLuhn_eq_luhnSpec (num : Bytes) : isValidLuhn num = luhnSpec num := by
  simp only [isValidLuhn, luhnSpec]
  cases hall : (num.filter (fun b => b != 32)).all isDigitByte with
  | false =>
      have hrev : ((num.filter (fun b => b != 32)).reverse).all isDigitByte = false := by
        rw [List.all_reverse]
        exact hall
      rw [luhnLoop_of_nondigit _ _ hrev]
      simp
  | true =>
      have hrev : ((num.filter (fun b => b != 32)).reverse).all isDigitByte = true := by
        rw [List.all_reverse]
        exact hall
      have h0 : (false : Bool) = decide (0 % 2 = 1) := by decide
      rw [h0, luhnLoop_of_digits _ 0 hrev]
      simp

/-- C7: the card-number check of ValidateCard is exactly the spec's Luhn
checksum (spaces stripped, non-digits rejected, right-to-left doubling with
the subtract-9 rule, validity iff the sum is divisible by 10), the sample
number 4716532755237178 passes and 1234567890 fails. -/
theorem spec_c7_luhn :
    (∀ num, isValidLuhn num = luhnSpec num) ∧
    isValidLuhn (asciiBytes "4716532755237178") = true ∧
    isValidLuhn (asciiBytes "1234567890") = false ∧
    (∀ num cvv, ValidateCard num cvv = .error .cardNumberInvalid ↔
        isValidLuhn (trimSpace num) = false) := by
  refine ⟨isValidLuhn_eq_luhnSpec, by decide, by decide, ?_⟩
  intro num cvv
  cases hl : isValidLuhn (trimSpace num) with
  | false => simp [ValidateCard, hl]
  | true =>
      simp only [ValidateCard, hl, Bool.not_true, Bool.false_eq_true, if_false]
      constructor
      · intro h
        split at h <;> cases h
      · intro h
        cases h

set_option maxRecDepth 8000 in
/-- C8: ValidateTitle trims whitespace, fails titleEmpty exactly on blank
titles, fails titleLong exactly when the trimmed title exceeds 128 bytes, and
succeeds otherwise; the three sample inputs behave as claimed. -/
theorem spec_c8_title :
    (∀ t, (ValidateTitle t = .error .titleEmpty ↔ trimSpace t = []) ∧
      (ValidateTitle t = .error .titleLong ↔ 128 < (trimSpace t).length) ∧
      (ValidateTitle t = .ok () ↔
        trimSpace t ≠ [] ∧ (trimSpace t).length ≤ 128)) ∧
    ValidateTitle [] = .error .titleEmpty ∧
    ValidateTitle (List.replicate 129 97) = .error .titleLong ∧
    ValidateTitle (asciiBytes "My Card") = .ok () := by
  refine ⟨?_, by decide, by decide, by decide⟩
  intro t
  by_cases h1 : trimSpace t = []
  · have h0 : (trimSpace t).length = 0 := by rw [h1]; rfl
    refine ⟨?_, ?_, ?_⟩ <;> simp [ValidateTitle, h1, h0]
  · by_cases h2 : 128 < (trimSpace t).length
    · refine ⟨?_, ?_, ?_⟩ <;> simp [ValidateTitle, h1, h2]
    · refine ⟨?_, ?_, ?_⟩
      · simp [ValidateTitle, h1, h2]
      · simp only [ValidateTitle]
        rw [if_neg h1, if_neg (by omega)]
        simp
        omega
      · simp [ValidateTitle, h1, h2]
        omega

/-- C9: an empty or all-space card number passes the Luhn routine (the digit
loop is vacuous and 0 mod 10 = 0), so ValidateCard accepts an empty number
together with any CVV that trims to exactly 3 bytes, digits or not. -/
theorem spec_c9_empty_luhn :
    (∀ num, (∀ b ∈ num, b = 32) → isValidLuhn num = true) ∧
    (∀ cvv, (trimSpace cvv).length = 3 → ValidateCard [] cvv = .ok ()) ∧
    ValidateCard [] (asciiBytes "abc") = .ok () := by
  refine ⟨?_, ?_, by decide⟩
  · intro num h
    have hf : num.filter (fun b => b != 32) = [] := by
      rw [List.filter_eq_nil_iff]
      intro b hb
      rw [h b hb]
      decide
    simp [isValidLuhn, hf, luhnLoop]
  · intro cvv h
    simp [ValidateCard, isValidLuhn, luhnLoop, h]

/-- Witness for C9 at an all-space number and a non-digit CVV. -/
theorem spec_c9_empty_luhn_witness :
    isValidLuhn [32, 32] = true ∧ ValidateCard [] (asciiBytes "xyz") = .ok () :=
  ⟨spec_c9_empty_luhn.1 [32, 32] (by decide),
   spec_c9_empty_luhn.2.1 (asciiBytes "xyz") (by decide)⟩

lemma rotateMatch_jti {now : Nat} {uid : Int} {oldJTI : Nat}
    {r : RefreshTokenRecord} (h : rotateMatch now uid oldJTI r = true) :
    r.jti = oldJTI := by
  simp only [rotateMatch, Bool.and_eq_true, beq_iff_eq] at h
  exact h.1.1.1

lemma jti_unique_mem (st : Ledger)
    (hu : st.Pairwise (fun a b => a.jti ≠ b.jti))
    {r1 r2 : RefreshTokenRecord} (h1 : r1 ∈ st) (h2 : r2 ∈ st)
    (hj : r1.jti = r2.jti) : r1 = r2 := by
  induction st with
  | nil => cases h1
  | cons a rest ih =>
    rw [List.pairwise_cons] at hu
    rcases List.mem_cons.mp h1 with rfl | h1r
    · rcases List.mem_cons.mp h2 with rfl | h2r
      · rfl
      · exact absurd hj (hu.1 r2 h2r)
    · rcases List.mem_cons.mp h2 with rfl | h2r
      · exact absurd hj.symm (hu.1 r1 h1r)
      · exact ih hu.2 h1r h2r

lemma filter_rotateMatch_single (st : Ledger) (now : Nat) (uid : Int)
    (oldJTI : Nat) (rec : RefreshTokenRecord)
    (hu : st.Pairwise (fun a b => a.jti ≠ b.jti))
    (hmem : rec ∈ st) (hm : rotateMatch now uid oldJTI rec = true) :
    st.filter (rotateMatch now uid oldJTI) = [rec] := by
  induction st with
  | nil => cases hmem
  | cons a rest ih =>
    rw [List.pairwise_cons] at hu
    rcases List.mem_cons.mp hmem with rfl | hmem2
    · rw [List.filter_cons, if_pos hm]
      have hrest : rest.filter (rotateMatch now uid oldJTI) = [] := by
        rw [List.filter_eq_nil_iff]
        intro r hr hcon
        exact hu.1 r hr (by rw [rotateMatch_jti hm, rotateMatch_jti hcon])
      rw [hrest]
    · have ha : ¬(rotateMatch now uid oldJTI a = true) := by
        intro hcon
        exact hu.1 rec hmem2 (by rw [rotateMatch_jti hcon, rotateMatch_jti hm])
      rw [List.filter_cons, if_neg ha]
      exact ih hu.2 hmem2

/-- C2 (amended): with jti the primary key, Rotate succeeds exactly when the
old record is still active for the user and the new jti is fresh, updating
replaced_by and appending the new record; when no active old record exists it
reports tokenAlreadyRotatedOrExpired with the ledger untouched; and when the
old record is active but newJTI already exists, the insert's uniqueness
violation aborts the transaction with the ledger untouched. -/
theorem spec_c2_rotate (st : Ledger) (now : Nat) (uid : Int)
    (oldJTI newJTI : Nat) (newHash : String) (ia ea : Nat)
    (hu : st.Pairwise (fun a b => a.jti ≠ b.jti)) :
    (∀ rec ∈ st, rec.jti = oldJTI → rec.userId = uid → rec.replacedBy = none →
      now < rec.expiresAt → (∀ r ∈ st, r.jti ≠ newJTI) →
      Rotate st now uid oldJTI newJTI newHash ia ea
        = (.ok (), st.map (fun r =>
            if r.jti = oldJTI then { r with replacedBy := some newJTI } else r)
          ++ [⟨newJTI, uid, newHash, ia, ea, none⟩])) ∧
    ((∀ r ∈ st, ¬(r.jti = oldJTI ∧ r.userId = uid ∧ r.replacedBy = none ∧
        now < r.expiresAt)) →
      Rotate st now uid oldJTI newJTI newHash ia ea
        = (.error .tokenAlreadyRotatedOrExpired, st)) ∧
    (∀ rec ∈ st, rec.jti = oldJTI → rec.userId = uid → rec.replacedBy = none →
      now < rec.expiresAt → (∃ r ∈ st, r.jti = newJTI) →
      Rotate st now uid oldJTI newJTI newHash ia ea
        = (.error .uniqueViolation, st)) := by
  refine ⟨?_, ?_, ?_⟩
  · intro rec hmem hj huid hrep hexp hfresh
    have hm : rotateMatch now uid oldJTI rec = true := by
      simp only [rotateMatch, Bool.and_eq_true, beq_iff_eq, decide_eq_true_eq]
      exact ⟨⟨⟨hj, huid⟩, hrep⟩, hexp⟩
    have hfil := filter_rotateMatch_single st now uid oldJTI rec hu hmem hm
    have hany : (st.map (fun r =>
        if rotateMatch now uid oldJTI r then { r with replacedBy := some newJTI }
        else r)).any (fun r => r.jti == newJTI) = false := by
      rw [List.any_eq_false]
      intro r2 hr2
      rcases List.mem_map.mp hr2 with ⟨r, hr, rfl⟩
      have : (if rotateMatch now uid oldJTI r then
          { r with replacedBy := some newJTI } else r).jti = r.jti := by
        split <;> rfl
      rw [this]
      simp only [beq_iff_eq]
      exact hfresh r hr
    have hmapeq : st.map (fun r =>
        if rotateMatch now uid oldJTI r then { r with replacedBy := some newJTI }
        else r)
        = st.map (fun r =>
          if r.jti = oldJTI then { r with replacedBy := some newJTI } else r) := by
      apply List.map_congr_left
      intro r hr
      by_cases hrm : rotateMatch now uid oldJTI r = true
      · rw [if_pos hrm, if_pos (rotateMatch_jti hrm)]
      · have : ¬(r.jti = oldJTI) := by
          intro hjr
          have : r = rec := jti_unique_mem st hu hr hmem (by rw [hjr, hj])
          rw [this] at hrm
          exact hrm hm
        rw [if_neg hrm, if_neg this]
    simp only [Rotate, hfil]
    rw [if_neg (by simp), if_neg (by rw [hany]; simp), hmapeq]
  · intro hnone
    have hfil : st.filter (rotateMatch now uid oldJTI) = [] := by
      rw [List.filter_eq_nil_iff]
      intro r hr hcon
      simp only [rotateMatch, Bool.and_eq_true, beq_iff_eq,
        decide_eq_true_eq] at hcon
      exact hnone r hr ⟨hcon.1.1.1, hcon.1.1.2, hcon.1.2, hcon.2⟩
    simp only [Rotate, hfil]
    rw [if_pos (by simp)]
  · intro rec hmem hj huid hrep hexp hdup
    have hm : rotateMatch now uid oldJTI rec = true := by
      simp only [rotateMatch, Bool.and_eq_true, beq_iff_eq, decide_eq_true_eq]
      exact ⟨⟨⟨hj, huid⟩, hrep⟩, hexp⟩
    have hfil := filter_rotateMatch_single st now uid oldJTI rec hu hmem hm
    rcases hdup with ⟨r, hr, hrj⟩
    have hany : (st.map (fun r =>
        if rotateMatch now uid oldJTI r then { r with replacedBy := some newJTI }
        else r)).any (fun r => r.jti == newJTI) = true := by
      rw [List.any_eq_true]
      refine ⟨if rotateMatch now uid oldJTI r then
        { r with replacedBy := some newJTI } else r, List.mem_map_of_mem _ hr, ?_⟩
      have : (if rotateMatch now uid oldJTI r then
          { r with replacedBy := some newJTI } else r).jti = r.jti := by
        split <;> rfl
      rw [this]
      exact beq_iff_eq.mpr hrj
    simp only [Rotate, hfil]
    rw [if_neg (by simp), if_pos hany]

/-- Counterexample for C2 as stated: the record for oldJTI 1 is active for
user 7 at time 50, yet Rotate fails (with the insert's uniqueness violation,
not tokenAlreadyRotatedOrExpired) and changes nothing, because a record with
jti = newJTI = 2 already exists. -/
theorem spec_c2_counterexample :
    (⟨1, 7, "h1", 0, 100, none⟩ : RefreshTokenRecord)
        ∈ [(⟨1, 7, "h1", 0, 100, none⟩ : RefreshTokenRecord),
           ⟨2, 7, "h2", 0, 100, none⟩] ∧
    (50 : Nat) < 100 ∧
    Rotate [⟨1, 7, "h1", 0, 100, none⟩, ⟨2, 7, "h2", 0, 100, none⟩]
        50 7 1 2 "nh" 50 150
      = (.error .uniqueViolation,
         [⟨1, 7, "h1", 0, 100, none⟩, ⟨2, 7, "h2", 0, 100, none⟩]) ∧
    (AuthErr.uniqueViolation ≠ AuthErr.tokenAlreadyRotatedOrExpired) :=
  ⟨by simp, by norm_num, by rfl, by simp⟩

/-- Witness for C2's amended theorem: all three branches exercised on
concrete ledgers. -/
theorem spec_c2_rotate_witness :
    Rotate [⟨1, 7, "h1", 0, 100, none⟩] 50 7 1 2 "nh" 50 150
      = (.ok (), [⟨1, 7, "h1", 0, 100, some 2⟩, ⟨2, 7, "nh", 50, 150, none⟩]) ∧
    Rotate [⟨1, 7, "h1", 0, 100, some 9⟩] 50 7 1 2 "nh" 50 150
      = (.error .tokenAlreadyRotatedOrExpired, [⟨1, 7, "h1", 0, 100, some 9⟩]) ∧
    Rotate [⟨1, 7, "h1", 0, 100, none⟩, ⟨2, 7, "h2", 0, 100, none⟩]
        50 7 1 2 "nh" 50 150
      = (.error .uniqueViolation,
         [⟨1, 7, "h1", 0, 100, none⟩, ⟨2, 7, "h2", 0, 100, none⟩]) := by
  refine ⟨?_, ?_, ?_⟩
  · have h := (spec_c2_rotate [⟨1, 7, "h1", 0, 100, none⟩] 50 7 1 2 "nh" 50 150
      (by simp)).1 ⟨1, 7, "h1", 0, 100, none⟩ (by simp) rfl rfl rfl (by norm_num)
      (by simp)
    rw [h]
    rfl
  · exact (spec_c2_rotate [⟨1, 7, "h1", 0, 100, some 9⟩] 50 7 1 2 "nh" 50 150
      (by simp)).2.1 (by simp)
  · exact (spec_c2_rotate
      [⟨1, 7, "h1", 0, 100, none⟩, ⟨2, 7, "h2", 0, 100, none⟩] 50 7 1 2 "nh" 50 150
      (by simp)).2.2 ⟨1, 7, "h1", 0, 100, none⟩ (by simp) rfl rfl rfl (by norm_num)
      ⟨⟨2, 7, "h2", 0, 100, none⟩, by simp, rfl⟩

/-- C3: once the incoming refresh token parses and a ledger record exists
for its jti, Refresh proceeds to issue tokens iff the record's user matches,
replaced_by is nil, now is at most expires_at, and the stored hash equals the
token's fingerprint; any single failed check yields the one generic
invalidRefreshCredentials, and an expired record always fails regardless of
the hash. -/
theorem spec_c3_refresh_checks (env : AuthDeps) (st : Ledger) (now : Nat)
    (tok us js : String) (uid : Int) (jti : Nat) (rec : RefreshTokenRecord)
    (h1 : env.parseRefreshToken tok = .ok (us, js))
    (h2 : env.parseInt64 us = .ok uid)
    (h3 : env.parseUUID js = .ok jti)
    (h4 : GetByJTI st jti = .ok rec) :
    (ValidateToken now uid (env.sha256Hex tok) rec = .ok () ↔
      (rec.userId = uid ∧ rec.replacedBy = none ∧ now ≤ rec.expiresAt ∧
        rec.tokenHash = env.sha256Hex tok)) ∧
    (ValidateToken now uid (env.sha256Hex tok) rec ≠ .ok () →
      (Refresh env st now tok).1 = .error .invalidRefreshCredentials ∧
      Effect.genAccessToken ∉ (Refresh env st now tok).2.2) ∧
    (ValidateToken now uid (env.sha256Hex tok) rec = .ok () →
      Effect.genAccessToken ∈ (Refresh env st now tok).2.2) ∧
    (rec.expiresAt < now →
      (Refresh env st now tok).1 = .error .invalidRefreshCredentials) := by
  have hiff : ValidateToken now uid (env.sha256Hex tok) rec = .ok () ↔
      (rec.userId = uid ∧ rec.replacedBy = none ∧ now ≤ rec.expiresAt ∧
        rec.tokenHash = env.sha256Hex tok) := by
    constructor
    · intro h
      simp only [ValidateToken] at h
      split_ifs at h with hA hB hC hD
      all_goals try cases h
      exact ⟨by simpa using hA, by simpa using hB, by omega, by simpa using hD⟩
    · intro ⟨hA, hB, hC, hD⟩
      simp only [ValidateToken]
      rw [if_neg (by omega), if_neg (by simp [hB]), if_neg (by omega),
        if_neg (by simp [hD])]
  refine ⟨hiff, ?_, ?_, ?_⟩
  · intro hne
    cases hval : ValidateToken now uid (env.sha256Hex tok) rec with
    | ok u =>
        cases u
        exact absurd hval hne
    | error e =>
        refine ⟨?_, ?_⟩ <;> simp [Refresh, h1, h2, h3, h4, hval]
  · intro hok
    simp only [Refresh, h1, h2, h3, h4, hok]
    cases env.generateAccessToken uid with
    | error e => simp
    | ok acc =>
        cases hgr : env.generateRefreshToken uid with
        | error e => simp
        | ok trip =>
            obtain ⟨t1, t2, t3⟩ := trip
            simp only []
            cases Rotate st now uid jti t2 (env.sha256Hex t1) now (now + t3) with
            | mk fst snd =>
                cases fst with
                | error e => simp
                | ok u => simp
  · intro hexp
    have hne : ValidateToken now uid (env.sha256Hex tok) rec ≠ .ok () := by
      intro hok
      have := (hiff.mp hok).2.2.1
      omega
    cases hval : ValidateToken now uid (env.sha256Hex tok) rec with
    | ok u =>
        cases u
        exact absurd hval hne
    | error e =>
        simp only [Refresh, h1, h2, h3, h4, hval]

/-- Witness for C3: an expired ledger record with the correct stored hash
still fails Refresh with the generic error. -/
theorem spec_c3_refresh_checks_witness :
    (Refresh sampleDeps [⟨2, 1, "hash", 0, 10, none⟩] 50 "t").1
      = .error .invalidRefreshCredentials :=
  (spec_c3_refresh_checks sampleDeps [⟨2, 1, "hash", 0, 10, none⟩] 50
    "t" "1" "2" 1 2 ⟨2, 1, "hash", 0, 10, none⟩ rfl rfl rfl rfl).2.2.2
    (by norm_num)

/-- Counterexample for C4 as stated: a tampered refresh token (its parse
fails, as JWTManager reports ErrRefreshExpiredToken on a bad signature)
surfaces refreshExpiredToken, while a replayed token (record already
rotated) surfaces invalidRefreshCredentials — two different caller-visible
errors. -/
theorem spec_c4_counterexample :
    (Refresh sampleDepsTampered [] 50 "t").1 = .error .refreshExpiredToken ∧
    (Refresh sampleDeps [⟨2, 1, "hash", 0, 100, some 9⟩] 50 "t").1
      = .error .invalidRefreshCredentials ∧
    AuthErr.refreshExpiredToken ≠ AuthErr.invalidRefreshCredentials :=
  ⟨rfl, rfl, by simp⟩

/-- C4 (amended): Login answers unknown logins and wrong passwords with the
same invalidCredentials; Refresh answers every post-parse ledger failure
(absent record or any failed validation check) with the same
invalidRefreshCredentials; but a refresh token that fails parsing surfaces
the parse error itself, which is distinct from the ledger error. -/
theorem spec_c4_error_uniformity (env : AuthDeps) (st : Ledger) (now : Nat)
    (l p : Bytes) (tok us js : String) (uid : Int) (jti : Nat) :
    (ValidateLogin l = .ok () → env.userGetByLogin l = .error .userNotFound →
      (Login env st now l p).1 = .error .invalidCredentials) ∧
    (∀ u, ValidateLogin l = .ok () → env.userGetByLogin l = .ok u →
      env.checkPasswordHash p u.passwordHash = false →
      (Login env st now l p).1 = .error .invalidCredentials) ∧
    (∀ e, env.parseRefreshToken tok = .error e →
      (Refresh env st now tok).1 = .error e) ∧
    (env.parseRefreshToken tok = .ok (us, js) → env.parseInt64 us = .ok uid →
      env.parseUUID js = .ok jti → GetByJTI st jti = .error .tokenDoesntExistByJTI →
      (Refresh env st now tok).1 = .error .invalidRefreshCredentials) ∧
    (∀ rec, env.parseRefreshToken tok = .ok (us, js) →
      env.parseInt64 us = .ok uid → env.parseUUID js = .ok jti →
      GetByJTI st jti = .ok rec →
      ValidateToken now uid (env.sha256Hex tok) rec ≠ .ok () →
      (Refresh env st now tok).1 = .error .invalidRefreshCredentials) := by
  refine ⟨?_, ?_, ?_, ?_, ?_⟩
  · intro hval hnf
    simp [Login, hval, hnf]
  · intro u hval hget hpw
    simp [Login, hval, hget, hpw]
  · intro e hparse
    simp [Refresh, hparse]
  · intro hparse hint huuid hget
    simp [Refresh, hparse, hint, huuid, hget]
  · intro rec hparse hint huuid hget hfail
    cases hval : ValidateToken now uid (env.sha256Hex tok) rec with
    | ok u =>
        cases u
        exact absurd hval hfail
    | error e => simp [Refresh, hparse, hint, huuid, hget, hval]

/-- Witness for C4's amended theorem: unknown login, wrong password and a
missing ledger record all hit the claimed generic errors. -/
theorem spec_c4_error_uniformity_witness :
    (Login sampleDeps [] 0 (asciiBytes "user") (asciiBytes "password")).1
      = .error .invalidCredentials ∧
    (Login sampleDepsWrongPw [] 0 (asciiBytes "user") (asciiBytes "password")).1
      = .error .invalidCredentials ∧
    (Refresh sampleDeps [] 50 "t").1 = .error .invalidRefreshCredentials :=
  ⟨(spec_c4_error_uniformity sampleDeps [] 0 (asciiBytes "user")
      (asciiBytes "password") "t" "1" "2" 1 2).1 rfl rfl,
   (spec_c4_error_uniformity sampleDepsWrongPw [] 0 (asciiBytes "user")
      (asciiBytes "password") "t" "1" "2" 1 2).2.1
      ⟨3, asciiBytes "user", "pwhash"⟩ rfl rfl rfl,
   (spec_c4_error_uniformity sampleDeps [] 50 (asciiBytes "user")
      (asciiBytes "password") "t" "1" "2" 1 2).2.2.2.1 rfl rfl rfl rfl⟩

/-- C10: Register rejects logins of at most 3 or more than 64 bytes and
passwords under 8 bytes with the matching validation error before calling
the hasher or any repository (the effect trace stays empty and the ledger is
untouched); Login performs the same login-length gate before the user
lookup. -/
theorem spec_c10_validation_gates (env : AuthDeps) (st : Ledger) (now : Nat)
    (l p : Bytes) :
    (l.length ≤ 3 → Register env st now l p = (.error .loginTooShort, st, [])) ∧
    (64 < l.length → Register env st now l p = (.error .loginTooLong, st, [])) ∧
    (ValidateLogin l = .ok () → p.length < 8 →
      Register env st now l p = (.error .passwordTooShort, st, [])) ∧
    (p.length < 8 → (Register env st now l p).2.2 = [] ∧
      ∃ e, (Register env st now l p).1 = .error e) ∧
    (l.length ≤ 3 → Login env st now l p = (.error .loginTooShort, st, [])) ∧
    (64 < l.length → Login env st now l p = (.error .loginTooLong, st, [])) := by
  refine ⟨?_, ?_, ?_, ?_, ?_, ?_⟩
  · intro h
    have hv : ValidateLogin l = .error .loginTooShort := by
      simp [ValidateLogin, h]
    simp [Register, hv]
  · intro h
    have hv : ValidateLogin l = .error .loginTooLong := by
      rw [ValidateLogin, if_neg (by omega), if_pos h]
    simp [Register, hv]
  · intro hv hp
    have hpw : ValidatePassword p = .error .passwordTooShort := by
      simp [ValidatePassword, hp]
    simp [Register, hv, hpw]
  · intro hp
    have hpw : ValidatePassword p = .error .passwordTooShort := by
      simp [ValidatePassword, hp]
    cases hv : ValidateLogin l with
    | error e => exact ⟨by simp [Register, hv], e, by simp [Register, hv]⟩
    | ok u =>
        cases u
        exact ⟨by simp [Register, hv, hpw],
          .passwordTooShort, by simp [Register, hv, hpw]⟩
  · intro h
    have hv : ValidateLogin l = .error .loginTooShort := by
      simp [ValidateLogin, h]
    simp [Login, hv]
  · intro h
    have hv : ValidateLogin l = .error .loginTooLong := by
      rw [ValidateLogin, if_neg (by omega), if_pos h]
    simp [Login, hv]

/-- Witness for C10: short login, long login and short password at concrete
inputs. -/
theorem spec_c10_validation_gates_witness :
    Register sampleDeps [] 0 (asciiBytes "abc") (asciiBytes "longpassword")
      = (.error .loginTooShort, [], []) ∧
    Register sampleDeps [] 0 (List.replicate 65 97) (asciiBytes "longpassword")
      = (.error .loginTooLong, [], []) ∧
    Register sampleDeps [] 0 (asciiBytes "user") (asciiBytes "short")
      = (.error .passwordTooShort, [], []) ∧
    Login sampleDeps [] 0 (asciiBytes "abc") (asciiBytes "longpassword")
      = (.error .loginTooShort, [], []) :=
  ⟨(spec_c10_validation_gates sampleDeps [] 0 (asciiBytes "abc")
      (asciiBytes "longpassword")).1 (by decide),
   (spec_c10_validation_gates sampleDeps [] 0 (List.replicate 65 97)
      (asciiBytes "longpassword")).2.1 (by decide),
   (spec_c10_validation_gates sampleDeps [] 0 (asciiBytes "user")
      (asciiBytes "short")).2.2.1 (by decide) (by decide),
   (spec_c10_validation_gates sampleDeps [] 0 (asciiBytes "abc")
      (asciiBytes "longpassword")).2.2.2.2.1 (by decide)⟩

/-- C1 fails on AddFile: json.Marshal never sees FileData.File (tag "-"),
so the stored ciphertext is identical for any two files with the same note,
and GetKey's decryption returns the note-only object — the submitted file
bytes are absent from the successfully stored secret.  Concretely, adding
file bytes [1, 2, 3] under title "f" and reading the key back yields the
same title but a payload equal to the marshalling of the empty file. -/
theorem spec_c1_addfile_drops_file :
    (∀ f1 f2 note, marshalFileData ⟨f1, note⟩ = marshalFileData ⟨f2, note⟩) ∧
    (AddFile ⟨List.replicate 32 7⟩ [] 99 (List.replicate 12 5) 1
        ⟨asciiBytes "f", [1, 2, 3], asciiBytes "n"⟩).1 = .ok 99 ∧
    (GetKey ⟨List.replicate 32 7⟩
        (AddFile ⟨List.replicate 32 7⟩ [] 99 (List.replicate 12 5) 1
          ⟨asciiBytes "f", [1, 2, 3], asciiBytes "n"⟩).2 1 99).map
        (fun x => x.1.title) = .ok (asciiBytes "f") ∧
    (GetKey ⟨List.replicate 32 7⟩
        (AddFile ⟨List.replicate 32 7⟩ [] 99 (List.replicate 12 5) 1
          ⟨asciiBytes "f", [1, 2, 3], asciiBytes "n"⟩).2 1 99).map
        (fun x => x.2) = .ok (marshalFileData ⟨[], asciiBytes "n"⟩) ∧
    (AddFile ⟨List.replicate 32 7⟩ [] 99 (List.replicate 12 5) 1
        ⟨asciiBytes "f", [1, 2, 3], asciiBytes "n"⟩).2
      = (AddFile ⟨List.replicate 32 7⟩ [] 99 (List.replicate 12 5) 1
        ⟨asciiBytes "f", [9, 9, 9, 9], asciiBytes "n"⟩).2 :=
  ⟨fun f1 f2 note => rfl, rfl, by rfl, by rfl, rfl⟩
